import Mathlib

/-!
Verification of the configmap-sync-operator reconciliation engine.

The Go sources are shallowly embedded:
- `calculateConfigHash` (controller.go 471-488) is embedded over association
  lists with a concrete SHA-256 over byte lists (bytes as `Nat < 256`,
  32-bit words as `Nat` reduced mod 2^32).
- The cluster is a list of `ConfigMap`s; client get/create/update/delete
  become list operations.
- `Reconcile` (controller.go 47-189), `reconcileDelete` (192-239),
  `fetchConfigData` (242-255) and the fan-out `Reconcile`
  (internal/controller/configmapsync_controller.go 56-138) become pure
  state-passing functions.  Source adapters that touch the filesystem,
  the network or secret storage (fetchFromGit, fetchFromFile,
  fetchFromConfigMap, fetchFromSecret) are modelled by an environment
  `FetchEnv` that supplies each adapter's outcome for the pass, and the
  fan-out's per-namespace client write failures by a `failNs` predicate.
- `readConfigFiles` (controller.go 427-468) is embedded over an inductive
  filesystem tree `FsNode`.
-/

/-! ### Bytes, words and SHA-256 (crypto/sha256 + encoding/hex) -/

/-- Reduce a natural number to a 32-bit word. -/
def w32 (n : Nat) : Nat := n % 4294967296

/-- 32-bit modular addition. -/
def add32 (a b : Nat) : Nat := (a + b) % 4294967296

/-- 32-bit bitwise complement (argument assumed < 2^32). -/
def bnot32 (x : Nat) : Nat := 4294967295 - x

/-- Right rotation of a 32-bit word by `n` places. -/
def rotr (n x : Nat) : Nat := w32 ((x >>> n) ||| (x <<< (32 - n)))

def smallSigma0 (x : Nat) : Nat := rotr 7 x ^^^ rotr 18 x ^^^ (x >>> 3)

def smallSigma1 (x : Nat) : Nat := rotr 17 x ^^^ rotr 19 x ^^^ (x >>> 10)

def bigSigma0 (x : Nat) : Nat := rotr 2 x ^^^ rotr 13 x ^^^ rotr 22 x

def bigSigma1 (x : Nat) : Nat := rotr 6 x ^^^ rotr 11 x ^^^ rotr 25 x

def chFn (x y z : Nat) : Nat := (x &&& y) ^^^ (bnot32 x &&& z)

def majFn (x y z : Nat) : Nat := (x &&& y) ^^^ (x &&& z) ^^^ (y &&& z)

/-- The 64 SHA-256 round constants of FIPS 180-4, in decimal. -/
def sha256K : List Nat :=
  [1116352408, 1899447441, 3049323471, 3921009573,
   961987163, 1508970993, 2453635748, 2870763221,
   3624381080, 310598401, 607225278, 1426881987,
   1925078388, 2162078206, 2614888103, 3248222580,
   3835390401, 4022224774, 264347078, 604807628,
   770255983, 1249150122, 1555081692, 1996064986,
   2554220882, 2821834349, 2952996808, 3210313671,
   3336571891, 3584528711, 113926993, 338241895,
   666307205, 773529912, 1294757372, 1396182291,
   1695183700, 1986661051, 2177026350, 2456956037,
   2730485921, 2820302411, 3259730800, 3345764771,
   3516065817, 3600352804, 4094571909, 275423344,
   430227734, 506948616, 659060556, 883997877,
   958139571, 1322822218, 1537002063, 1747873779,
   1955562222, 2024104815, 2227730452, 2361852424,
   2428436474, 2756734187, 3204031479, 3329325298]

/-- Big-endian rendering of `n` on `k` bytes. -/
def toBytesBE : Nat → Nat → List Nat
  | 0, _ => []
  | k + 1, n => toBytesBE k (n / 256) ++ [n % 256]

/-- Group a byte list into big-endian 32-bit words. -/
def bytesToWords : List Nat → List Nat
  | b0 :: b1 :: b2 :: b3 :: rest =>
      (((b0 * 256 + b1) * 256 + b2) * 256 + b3) :: bytesToWords rest
  | _ => []

/-- SHA-256 padding: append 0x80, zero bytes up to 56 mod 64, then the
bit length on 8 big-endian bytes. -/
def padMessage (msg : List Nat) : List Nat :=
  msg ++ [0x80] ++ List.replicate ((119 - msg.length % 64) % 64) 0
      ++ toBytesBE 8 (msg.length * 8)

/-- Split a byte list into 64-byte blocks.  The fuel bounds the number
of blocks by the byte count, keeping the recursion structural. -/
def blocks64Go : Nat → List Nat → List (List Nat)
  | 0, _ => []
  | _, [] => []
  | fuel + 1, l => l.take 64 :: blocks64Go fuel (l.drop 64)

/-- Split a byte list into 64-byte blocks. -/
def blocks64 (l : List Nat) : List (List Nat) :=
  blocks64Go l.length l

/-- Extend a 16-word message schedule by `n` further words. -/
def extendSchedule : Nat → List Nat → List Nat
  | 0, w => w
  | n + 1, w =>
      let t := w.length
      let wt := add32 (add32 (smallSigma1 (w.getD (t - 2) 0)) (w.getD (t - 7) 0))
                      (add32 (smallSigma0 (w.getD (t - 15) 0)) (w.getD (t - 16) 0))
      extendSchedule n (w ++ [wt])

structure Sha256State where
  a : Nat
  b : Nat
  c : Nat
  d : Nat
  e : Nat
  f : Nat
  g : Nat
  h : Nat
deriving DecidableEq

/-- The SHA-256 initial hash value of FIPS 180-4, in decimal. -/
def sha256Init : Sha256State :=
  ⟨1779033703, 3144134277, 1013904242, 2773480762,
   1359893119, 2600822924, 528734635, 1541459225⟩

/-- One SHA-256 compression round; `kw` is the round constant plus the
schedule word, already reduced mod 2^32. -/
def compressRound (s : Sha256State) (kw : Nat) : Sha256State :=
  let t1 := add32 s.h (add32 (bigSigma1 s.e) (add32 (chFn s.e s.f s.g) kw))
  let t2 := add32 (bigSigma0 s.a) (majFn s.a s.b s.c)
  ⟨add32 t1 t2, s.a, s.b, s.c, add32 s.d t1, s.e, s.f, s.g⟩

/-- Compress one 64-byte block into the running state. -/
def compressBlock (hs : Sha256State) (block : List Nat) : Sha256State :=
  let w := extendSchedule 48 (bytesToWords block)
  let s := (sha256K.zip w).foldl (fun st p => compressRound st (add32 p.1 p.2)) hs
  ⟨add32 hs.a s.a, add32 hs.b s.b, add32 hs.c s.c, add32 hs.d s.d,
   add32 hs.e s.e, add32 hs.f s.f, add32 hs.g s.g, add32 hs.h s.h⟩

/-- SHA-256 of a byte list, as a 32-byte list. -/
def sha256 (msg : List Nat) : List Nat :=
  let fin := (blocks64 (padMessage msg)).foldl compressBlock sha256Init
  toBytesBE 4 fin.a ++ toBytesBE 4 fin.b ++ toBytesBE 4 fin.c ++ toBytesBE 4 fin.d
    ++ toBytesBE 4 fin.e ++ toBytesBE 4 fin.f ++ toBytesBE 4 fin.g ++ toBytesBE 4 fin.h

/-- One lower-case hexadecimal digit. -/
def hexDigit (n : Nat) : Char :=
  if n < 10 then Char.ofNat (48 + n) else Char.ofNat (87 + n)

/-- encoding/hex: lower-case hex rendering of a byte list. -/
def hexEncode (bytes : List Nat) : String :=
  String.mk (bytes.foldr (fun b acc => hexDigit (b / 16) :: hexDigit (b % 16) :: acc) [])

/-! ### Content maps and the fingerprint (controller.go 471-488)

A Go `map[string]string` is embedded as an association list whose keys are
unique; theorems carry the `Nodup` hypothesis where it matters. -/

/-- UTF-8 encoding of one character, matching Go's `[]byte(string)`. -/
def utf8Bytes (c : Char) : List Nat :=
  let n := c.toNat
  if n < 0x80 then [n]
  else if n < 0x800 then [0xc0 ||| (n >>> 6), 0x80 ||| (n &&& 0x3f)]
  else if n < 0x10000 then
    [0xe0 ||| (n >>> 12), 0x80 ||| ((n >>> 6) &&& 0x3f), 0x80 ||| (n &&& 0x3f)]
  else
    [0xf0 ||| (n >>> 18), 0x80 ||| ((n >>> 12) &&& 0x3f),
     0x80 ||| ((n >>> 6) &&& 0x3f), 0x80 ||| (n &&& 0x3f)]

/-- The bytes of a string, UTF-8 encoded as in Go. -/
def strBytes (s : String) : List Nat :=
  s.data.foldr (fun c acc => utf8Bytes c ++ acc) []

/-- Go map indexing `m[k]` (keys are unique in a Go map; on a missing key
Go yields the zero value, the empty string). -/
def mapGet (m : List (String × String)) (k : String) : String :=
  match m with
  | [] => ""
  | p :: rest => if p.1 = k then p.2 else mapGet rest k

/-- The key set of the map, sorted as by Go's sort.Strings
(controller.go 475-479). -/
def sortKeys (m : List (String × String)) : List String :=
  List.insertionSort (fun a b : String => a ≤ b) (m.map Prod.fst)

/-- The byte stream written into the digest: each key immediately followed
by its value, in sorted key order (controller.go 482-485). -/
def hashInput (m : List (String × String)) : List Nat :=
  (sortKeys m).foldl (fun acc k => acc ++ strBytes k ++ strBytes (mapGet m k)) []

/-- calculateConfigHash (controller.go 471-488): hex rendering of the
SHA-256 digest of `hashInput`. -/
def calculateConfigHash (m : List (String × String)) : String :=
  hexEncode (sha256 (hashInput m))

/-! ### Filesystem trees and readConfigFiles (controller.go 427-468) -/

/-- A filesystem node: a regular file with raw content, or a directory
with its direct entries (name, node). -/
inductive FsNode where
  | file (content : String)
  | dir (entries : List (String × FsNode))

/-- readConfigFiles (controller.go 427-468) on an existing path.
`baseName` is `filepath.Base(path)`, used only in the single-file case.
For a directory, each direct entry that is itself a directory is skipped
(controller.go 443-445); each regular-file entry contributes one map entry
keyed by its file name, value the raw content.  For a single file, the map
has exactly one entry keyed by the base name. -/
def readConfigFiles (baseName : String) : FsNode → List (String × String)
  | .dir entries =>
      entries.foldl (fun acc e =>
        match e.2 with
        | .dir _ => acc
        | .file content => acc ++ [(e.1, content)]) []
  | .file content => [(baseName, content)]

/-! ### The cluster world -/

/-- A ConfigMap artifact.  Owner references are reduced to the owners'
UIDs, the only part `isOwnedBy` (controller.go 531-538) inspects. -/
structure ConfigMap where
  name : String
  nspace : String
  data : List (String × String) := []
  binData : List (String × List Nat) := []
  labels : List (String × String) := []
  ownerReferences : List String := []
deriving DecidableEq

/-- The cluster's ConfigMaps.  `getCM` is the client Get keyed by
name and namespace. -/
def getCM (world : List ConfigMap) (name nspace : String) : Option ConfigMap :=
  world.find? (fun cm => cm.name == name && cm.nspace == nspace)

/-- Client Create/Update of one ConfigMap: the world afterwards maps the
ConfigMap's key to it and leaves every other key unchanged. -/
def putCM (world : List ConfigMap) (cm : ConfigMap) : List ConfigMap :=
  cm :: world.filter (fun c => !(c.name == cm.name && c.nspace == cm.nspace))

/-- Client Delete of one ConfigMap by key. -/
def delCM (world : List ConfigMap) (name nspace : String) : List ConfigMap :=
  world.filter (fun c => !(c.name == name && c.nspace == nspace))

/-! ### The ConfigMapSource record (api/v1alpha1/configmapsource_types.go) -/

/-- A status condition (metav1.Condition, the fields the controller
writes). -/
structure Condition where
  ctype : String
  cstatus : String
  reason : String
  message : String
  lastTransitionTime : Nat
  observedGeneration : Nat
deriving DecidableEq

/-- ConfigMapSourceSpec.  The four source descriptors are not carried:
their contents only feed the adapters, which the reconcile model takes
from the environment. -/
structure SourceSpec where
  sourceType : String
  targetConfigMap : String
  targetNamespace : String := ""
  refreshInterval : Option Nat := none
deriving DecidableEq

/-- ConfigMapSourceStatus. -/
structure SourceStatus where
  lastSyncTime : Option Nat := none
  lastSyncHash : String := ""
  conditions : List Condition := []
deriving DecidableEq

/-- A ConfigMapSource record with the metadata the controller reads. -/
structure CfgSource where
  name : String
  nspace : String
  uid : String
  generation : Nat := 0
  finalizers : List String := []
  deletionTimestamp : Option Nat := none
  spec : SourceSpec
  status : SourceStatus := {}
deriving DecidableEq

def finalizerName : String := "configmapsource.config.example.com/finalizer"

/-- Target namespace resolution (controller.go 80-83 and 197-200). -/
def resolveTargetNs (src : CfgSource) : String :=
  if src.spec.targetNamespace = "" then src.nspace else src.spec.targetNamespace

/-- isOwnedBy (controller.go 531-538): some owner reference on the
ConfigMap carries the source's UID. -/
def isOwnedBy (cm : ConfigMap) (src : CfgSource) : Bool :=
  cm.ownerReferences.any (fun u => u == src.uid)

/-- setStatusCondition's upsert (controller.go 502-528): replace the first
condition of the same type in place, else append. -/
def upsertCondition (conds : List Condition) (c : Condition) : List Condition :=
  match conds with
  | [] => [c]
  | x :: rest => if x.ctype = c.ctype then c :: rest else x :: upsertCondition rest c

/-- The stamping of controller.go 518-519: every condition write refreshes
the transition time and observed generation. -/
def stampCondition (c : Condition) (now gen : Nat) : Condition :=
  { c with lastTransitionTime := now, observedGeneration := gen }

/-- setStatusCondition (controller.go 502-528): stamp the condition with
the transition time and observed generation, then upsert by type. -/
def setStatusCondition (st : SourceStatus) (c : Condition) (now gen : Nat) : SourceStatus :=
  { st with conditions := upsertCondition st.conditions (stampCondition c now gen) }

/-- requeueBasedOnRefreshInterval (controller.go 491-499), in seconds;
0 renders ctrl.Result\x7b\x7d (no periodic redelivery). -/
def requeueSeconds (src : CfgSource) : Nat :=
  match src.spec.refreshInterval with
  | some i => if i > 0 then i else 0
  | none => 0

/-! ### Source adapters as an environment

fetchFromGit / fetchFromFile / fetchFromConfigMap / fetchFromSecret
(controller.go 257-424) read git remotes, the local filesystem, and the
cluster; a pass observes each as one outcome, supplied by `FetchEnv`. -/

deriving instance DecidableEq for Except

structure FetchEnv where
  gitResult : Except String (List (String × String))
  fileResult : Except String (List (String × String))
  configMapResult : Except String (List (String × String))
  secretResult : Except String (List (String × String))
deriving DecidableEq

/-- fetchConfigData (controller.go 242-255): dispatch on the source type
string (the Go switch, written as the equivalent if-chain); an
unrecognized type is an error independent of the environment. -/
def fetchConfigData (env : FetchEnv) (src : CfgSource) :
    Except String (List (String × String)) :=
  if src.spec.sourceType = "Git" then env.gitResult
  else if src.spec.sourceType = "File" then env.fileResult
  else if src.spec.sourceType = "ConfigMap" then env.configMapResult
  else if src.spec.sourceType = "Secret" then env.secretResult
  else .error ("unsupported source type: " ++ src.spec.sourceType)

/-! ### The reconcile pass (controller.go 47-239) -/

/-- The client operations a pass performs against the cluster, traced so
frame conditions can be stated. -/
inductive Op where
  | getTarget (name nspace : String)
  | createTarget (name nspace : String)
  | updateTarget (name nspace : String)
  | deleteTarget (name nspace : String)
  | updateSource
  | updateStatus
deriving DecidableEq

/-- Everything a reconcile pass returns and changes: the new world, the
written-back record, ctrl.Result's RequeueAfter in seconds (0 = none),
the error handed to the dispatcher, and the trace of client operations
on ConfigMaps and on the record. -/
structure PassOut where
  world : List ConfigMap
  src : CfgSource
  requeueAfter : Nat
  err : Option String
  ops : List Op
deriving DecidableEq

/-- reconcileDelete (controller.go 192-239): if the target namespace
equals the record's own namespace, read the target; delete it only when
`isOwnedBy` holds; in every case remove the finalizer. -/
def reconcileDelete (src : CfgSource) (world : List ConfigMap) : PassOut :=
  let targetNs := resolveTargetNs src
  let tname := src.spec.targetConfigMap
  let step :
      List ConfigMap × List Op :=
    if src.nspace = targetNs then
      match getCM world tname targetNs with
      | none => (world, [Op.getTarget tname targetNs])
      | some cm =>
        if isOwnedBy cm src then
          (delCM world tname targetNs,
           [Op.getTarget tname targetNs, Op.deleteTarget tname targetNs])
        else (world, [Op.getTarget tname targetNs])
    else (world, [])
  { world := step.1,
    src := { src with finalizers := src.finalizers.filter (fun f => f != finalizerName) },
    requeueAfter := 0,
    err := none,
    ops := step.2 ++ [Op.updateSource] }

/-- Reconcile (controller.go 47-189) for a record that exists: finalizer
attachment, the deletion branch, fetch, change detection, and the
create-or-update materialization.  `now` stamps status times. -/
def reconcile (env : FetchEnv) (src : CfgSource) (world : List ConfigMap)
    (now : Nat) : PassOut :=
  if finalizerName ∈ src.finalizers then
    match src.deletionTimestamp with
    | some _ => reconcileDelete src world
    | none =>
      let targetNs := resolveTargetNs src
      let tname := src.spec.targetConfigMap
      match fetchConfigData env src with
      | .error e =>
        let src1 := { src with status :=
          (setStatusCondition src.status
            ⟨"Ready", "False", "FetchFailed",
             "Failed to fetch configuration data: " ++ e, 0, 0⟩ now src.generation) }
        { world := world, src := src1, requeueAfter := 60, err := some e,
          ops := [Op.updateStatus] }
      | .ok configData =>
        let configHash := calculateConfigHash configData
        if configHash = src.status.lastSyncHash then
          let src1 := { src with status := { src.status with lastSyncTime := some now } }
          { world := world, src := src1, requeueAfter := requeueSeconds src,
            err := none, ops := [Op.updateStatus] }
        else
          let step : List ConfigMap × List Op :=
            match getCM world tname targetNs with
            | some cm =>
              (putCM world { cm with data := configData },
               [Op.getTarget tname targetNs, Op.updateTarget tname targetNs])
            | none =>
              (putCM world
                 { name := tname, nspace := targetNs, data := configData,
                   ownerReferences := if src.nspace = targetNs then [src.uid] else [] },
               [Op.getTarget tname targetNs, Op.createTarget tname targetNs])
          let src1 := { src with status :=
            (setStatusCondition
              ({ src.status with lastSyncTime := some now, lastSyncHash := configHash })
              ⟨"Ready", "True", "SyncSuccess",
               "Successfully synced configuration data", 0, 0⟩ now src.generation) }
          { world := step.1, src := src1, requeueAfter := requeueSeconds src,
            err := none, ops := step.2 ++ [Op.updateStatus] }
  else
    { world := world,
      src := { src with finalizers := src.finalizers ++ [finalizerName] },
      requeueAfter := 0, err := none, ops := [Op.updateSource] }

/-! ### The fan-out variant
(internal/controller/configmapsync_controller.go 56-138) -/

/-- A ConfigMapSync record.  Status fields are inlined. -/
structure ConfigMapSync where
  name : String
  nspace : String
  sourceConfigMap : String
  targetNamespaces : List String
  labels : List (String × String) := []
  lastSyncTime : Option Nat := none
  syncedNamespaces : List String := []
deriving DecidableEq

structure SyncOut where
  world : List ConfigMap
  cms : ConfigMapSync
  requeueAfter : Nat
deriving DecidableEq

/-- controllerutil.CreateOrUpdate as used at lines 92-117: if the target
exists, its data and binary data are overwritten in place (the live
object's other fields survive); otherwise a fresh ConfigMap named after
the source, carrying the configured labels, is created.  The
SetControllerReference branch at lines 100-106 is unreachable (its guard
namespace = own namespace was already skipped at line 87) and adds no
owner reference here. -/
def createOrUpdate (world : List ConfigMap) (nspace : String) (srcCM : ConfigMap)
    (labels : List (String × String)) : List ConfigMap :=
  match getCM world srcCM.name nspace with
  | some existing =>
      putCM world { existing with data := srcCM.data, binData := srcCM.binData }
  | none =>
      putCM world
        { name := srcCM.name, nspace := nspace, labels := labels,
          data := srcCM.data, binData := srcCM.binData }

/-- The loop of lines 85-125: skip the record's own namespace; a failed
write (`failNs`) is logged and skipped without aborting the rest; a
successful write appends the namespace to the synced accumulator. -/
def syncLoop (cms : ConfigMapSync) (srcCM : ConfigMap) (failNs : String → Bool) :
    List String → List ConfigMap → List ConfigMap × List String
  | [], world => (world, [])
  | ns :: rest, world =>
    if ns = cms.nspace then syncLoop cms srcCM failNs rest world
    else if failNs ns then syncLoop cms srcCM failNs rest world
    else
      let world1 := createOrUpdate world ns srcCM cms.labels
      let out := syncLoop cms srcCM failNs rest world1
      (out.1, ns :: out.2)

/-- The fan-out Reconcile (configmapsync_controller.go 56-138): a missing
source ConfigMap requeues after 10 seconds with no error; otherwise every
target namespace is attempted, status.syncedNamespaces is rewritten to
exactly this pass's successes, and the pass requeues after 5 minutes
regardless of per-namespace failures. -/
def syncReconcile (cms : ConfigMapSync) (world : List ConfigMap)
    (failNs : String → Bool) (now : Nat) : SyncOut :=
  match getCM world cms.sourceConfigMap cms.nspace with
  | none => { world := world, cms := cms, requeueAfter := 10 }
  | some srcCM =>
    let out := syncLoop cms srcCM failNs cms.targetNamespaces world
    { world := out.1,
      cms := { cms with lastSyncTime := some now, syncedNamespaces := out.2 },
      requeueAfter := 300 }

/-! ### Concrete instances evaluated by the witnesses -/

/-- The direct entries of a directory that are regular files, as map
entries; subdirectory entries yield none. -/
def fsFileEntry (e : String × FsNode) : Option (String × String) :=
  match e.2 with
  | .file content => some (e.1, content)
  | .dir _ => none

def c1src : CfgSource :=
  { name := "req", nspace := "default", uid := "uid-1",
    finalizers := [finalizerName], deletionTimestamp := some 1,
    spec := { sourceType := "ConfigMap", targetConfigMap := "app-config" } }

/-- A pre-existing target of the same name owned by somebody else. -/
def c1cm : ConfigMap :=
  { name := "app-config", nspace := "default", ownerReferences := ["other-uid"] }

def c3src : CfgSource :=
  { name := "req", nspace := "default", uid := "uid-3",
    finalizers := [finalizerName],
    spec := { sourceType := "File", targetConfigMap := "tgt" } }

def c3env : FetchEnv :=
  { gitResult := .error "off", fileResult := .ok [("k", "v")],
    configMapResult := .error "off", secretResult := .error "off" }

def c4src : CfgSource :=
  { name := "req", nspace := "default", uid := "uid-4",
    finalizers := [finalizerName],
    spec := { sourceType := "File", targetConfigMap := "tgt" },
    status := { lastSyncHash := calculateConfigHash [("k", "v")] } }

def c4env : FetchEnv :=
  { gitResult := .error "off", fileResult := .ok [("k", "v")],
    configMapResult := .error "off", secretResult := .error "off" }

def c5src : CfgSource :=
  { name := "req", nspace := "default", uid := "uid-5",
    finalizers := [finalizerName],
    spec := { sourceType := "Git", targetConfigMap := "tgt",
              refreshInterval := some 600 },
    status := { lastSyncHash := "abc123" } }

def c5env : FetchEnv :=
  { gitResult := .error "clone failed", fileResult := .ok [],
    configMapResult := .ok [], secretResult := .ok [] }

def c6srcCM : ConfigMap :=
  { name := "app-config", nspace := "default", data := [("k", "v")] }

def c6cms : ConfigMapSync :=
  { name := "sync", nspace := "default", sourceConfigMap := "app-config",
    targetNamespaces := ["ns1", "ns2"],
    syncedNamespaces := ["stale-ns"] }

def c6fail (ns : String) : Bool := ns == "ns2"

def c9src : CfgSource :=
  { name := "req", nspace := "default", uid := "uid-9",
    finalizers := [finalizerName],
    spec := { sourceType := "Vault", targetConfigMap := "tgt" } }

def c9env : FetchEnv :=
  { gitResult := .ok [], fileResult := .ok [],
    configMapResult := .ok [], secretResult := .ok [] }

def c10src : CfgSource :=
  { name := "req", nspace := "default", uid := "uid-10",
    finalizers := [finalizerName],
    spec := { sourceType := "ConfigMap", targetConfigMap := "tgt" },
    status := { lastSyncHash := calculateConfigHash [("a", "1")] } }

def c10env : FetchEnv :=
  { gitResult := .error "off", fileResult := .error "off",
    configMapResult := .ok [("a", "1")], secretResult := .error "off" }

/-! ### Helper lemmas about the cluster world -/

theorem find?_filter_comm {α : Type} (p q : α → Bool) (l : List α)
    (h : ∀ a, p a = true → q a = true) :
    (l.filter q).find? p = l.find? p := by
  induction l with
  | nil => rfl
  | cons a l ih =>
    by_cases hq : q a = true
    · rw [List.filter_cons_of_pos hq]
      by_cases hp : p a = true
      · rw [List.find?_cons_of_pos _ hp, List.find?_cons_of_pos _ hp]
      · rw [List.find?_cons_of_neg _ hp, List.find?_cons_of_neg _ hp, ih]
    · have hp : ¬ p a = true := fun hpa => hq (h a hpa)
      rw [List.filter_cons_of_neg hq, List.find?_cons_of_neg _ hp, ih]

theorem getCM_putCM_self (w : List ConfigMap) (cm : ConfigMap) :
    getCM (putCM w cm) cm.name cm.nspace = some cm := by
  unfold getCM putCM
  rw [List.find?_cons_of_pos]
  simp

theorem getCM_putCM_other (w : List ConfigMap) (cm : ConfigMap) (n s : String)
    (h : ¬(n = cm.name ∧ s = cm.nspace)) :
    getCM (putCM w cm) n s = getCM w n s := by
  unfold getCM putCM
  rw [List.find?_cons_of_neg]
  · apply find?_filter_comm
    intro a ha
    simp only [Bool.and_eq_true, beq_iff_eq] at ha
    cases hq : (a.name == cm.name && a.nspace == cm.nspace) with
    | false => rfl
    | true =>
      exfalso
      simp only [Bool.and_eq_true, beq_iff_eq] at hq
      exact h ⟨ha.1.symm.trans hq.1, ha.2.symm.trans hq.2⟩
  · simp only [Bool.and_eq_true, beq_iff_eq]
    intro hc
    exact h ⟨hc.1.symm, hc.2.symm⟩

theorem getCM_delCM_self (w : List ConfigMap) (n s : String) :
    getCM (delCM w n s) n s = none := by
  unfold getCM delCM
  rw [List.find?_eq_none]
  intro a ha hp
  rw [List.mem_filter] at ha
  rw [hp] at ha
  exact Bool.false_ne_true ha.2

theorem getCM_delCM_other (w : List ConfigMap) (name nspace n s : String)
    (h : ¬(n = name ∧ s = nspace)) :
    getCM (delCM w name nspace) n s = getCM w n s := by
  unfold getCM delCM
  apply find?_filter_comm
  intro a ha
  simp only [Bool.and_eq_true, beq_iff_eq] at ha
  cases hq : (a.name == name && a.nspace == nspace) with
  | false => rfl
  | true =>
    exfalso
    simp only [Bool.and_eq_true, beq_iff_eq] at hq
    exact h ⟨ha.1.symm.trans hq.1, ha.2.symm.trans hq.2⟩

theorem getCM_some_key {w : List ConfigMap} {n s : String} {cm : ConfigMap}
    (h : getCM w n s = some cm) : cm.name = n ∧ cm.nspace = s := by
  unfold getCM at h
  have hp := List.find?_some h
  simp only [Bool.and_eq_true, beq_iff_eq] at hp
  exact hp

theorem mem_upsertCondition (conds : List Condition) (c : Condition) :
    c ∈ upsertCondition conds c := by
  induction conds with
  | nil => exact List.Mem.head _
  | cons x rest ih =>
    unfold upsertCondition
    by_cases h : x.ctype = c.ctype
    · rw [if_pos h]; exact List.Mem.head _
    · rw [if_neg h]; exact List.Mem.tail _ ih

/-! ### Helper lemmas about the fingerprint -/

theorem mapGet_perm :
    ∀ {m₁ m₂ : List (String × String)}, m₁.Perm m₂ →
      (m₁.map Prod.fst).Nodup → ∀ k, mapGet m₁ k = mapGet m₂ k := by
  intro m₁ m₂ hp
  induction hp with
  | nil => intro _ k; rfl
  | cons x t ih =>
    intro hnd k
    simp only [List.map_cons, List.nodup_cons] at hnd
    by_cases h : x.1 = k
    · simp [mapGet, h]
    · simp only [mapGet, h, if_false]
      exact ih hnd.2 k
  | swap x y l =>
    intro hnd k
    simp only [List.map_cons, List.nodup_cons, List.mem_cons] at hnd
    have hxy : y.1 ≠ x.1 := fun hcontra => hnd.1 (Or.inl hcontra)
    by_cases hx : x.1 = k <;> by_cases hy : y.1 = k
    · exact absurd (hy.trans hx.symm) hxy
    · simp [mapGet, hx, hy]
    · simp [mapGet, hx, hy]
    · simp [mapGet, hx, hy]
  | trans h₁ h₂ ih₁ ih₂ =>
    intro hnd k
    have hnd2 := (h₁.map Prod.fst).nodup hnd
    exact (ih₁ hnd k).trans (ih₂ hnd2 k)

theorem sortKeys_perm {m₁ m₂ : List (String × String)} (hp : m₁.Perm m₂) :
    sortKeys m₁ = sortKeys m₂ := by
  unfold sortKeys
  refine List.eq_of_perm_of_sorted ?_
    (List.sorted_insertionSort _ _) (List.sorted_insertionSort _ _)
  exact ((List.perm_insertionSort _ _).trans (hp.map Prod.fst)).trans
    (List.perm_insertionSort _ _).symm

theorem foldl_append_flatten {α β : Type} (f : α → List β) (l : List α) :
    ∀ acc : List β, l.foldl (fun a k => a ++ f k) acc = acc ++ (l.map f).flatten := by
  induction l with
  | nil => intro acc; simp
  | cons x rest ih => intro acc; simp [ih, List.append_assoc]

theorem hashInput_eq_flatten (m : List (String × String)) :
    hashInput m = ((sortKeys m).map (fun k => strBytes k ++ strBytes (mapGet m k))).flatten := by
  unfold hashInput
  have hfun : (fun (acc : List Nat) k => acc ++ strBytes k ++ strBytes (mapGet m k))
      = fun (acc : List Nat) k => acc ++ (strBytes k ++ strBytes (mapGet m k)) := by
    funext acc k
    rw [List.append_assoc]
  rw [hfun, foldl_append_flatten]
  rfl

theorem hashInput_perm {m₁ m₂ : List (String × String)} (hp : m₁.Perm m₂)
    (hnd : (m₁.map Prod.fst).Nodup) : hashInput m₁ = hashInput m₂ := by
  unfold hashInput
  rw [sortKeys_perm hp]
  have hfun : (fun (acc : List Nat) k => acc ++ strBytes k ++ strBytes (mapGet m₁ k))
      = fun (acc : List Nat) k => acc ++ strBytes k ++ strBytes (mapGet m₂ k) := by
    funext acc k
    rw [mapGet_perm hp hnd k]
  rw [hfun]

/-! ### Claim theorems -/

/-- C2: for every content map the fingerprint is the hex rendering of the
SHA-256 digest of the concatenation of each key immediately followed by
its value in sorted key order; it is total, on the empty map it yields
the digest of the empty byte string; and permuting the entries of a map
(equal maps, any insertion order) leaves the fingerprint unchanged. -/
theorem calculateConfigHash_correct :
    (∀ m : List (String × String),
       calculateConfigHash m
         = hexEncode (sha256
             (((sortKeys m).map (fun k => strBytes k ++ strBytes (mapGet m k))).flatten))) ∧
    calculateConfigHash [] = hexEncode (sha256 []) ∧
    ∀ m₁ m₂ : List (String × String), (m₁.map Prod.fst).Nodup → m₁.Perm m₂ →
      calculateConfigHash m₁ = calculateConfigHash m₂ := by
  refine ⟨?_, rfl, ?_⟩
  · intro m
    unfold calculateConfigHash
    rw [hashInput_eq_flatten]
  · intro m₁ m₂ hnd hp
    unfold calculateConfigHash
    rw [hashInput_perm hp hnd]

/-- Witness for C2: a concrete two-entry map and a permutation of it
yield the same fingerprint. -/
theorem calculateConfigHash_correct_witness :
    ([("a", "1"), ("b", "2")] : List (String × String)).Perm [("b", "2"), ("a", "1")] ∧
    calculateConfigHash [("a", "1"), ("b", "2")]
      = calculateConfigHash [("b", "2"), ("a", "1")] :=
  ⟨by decide, calculateConfigHash_correct.2.2 _ _ (by decide) (by decide)⟩

/-- C8: keys and values are concatenated without a delimiter, so the two
different maps with entries ab ↦ c and a ↦ bc feed the same bytes (the
bytes of the string abc) to the digest and collide. -/
theorem calculateConfigHash_boundary_collision :
    ([("ab", "c")] : List (String × String)) ≠ [("a", "bc")] ∧
    hashInput [("ab", "c")] = strBytes "abc" ∧
    hashInput [("a", "bc")] = strBytes "abc" ∧
    calculateConfigHash [("ab", "c")] = calculateConfigHash [("a", "bc")] := by
  refine ⟨by decide, by decide, by decide, ?_⟩
  have h : hashInput [("ab", "c")] = hashInput [("a", "bc")] := by decide
  unfold calculateConfigHash
  rw [h]

theorem readConfigFiles_dir_eq (b : String) (ents : List (String × FsNode)) :
    readConfigFiles b (.dir ents) = ents.filterMap fsFileEntry := by
  show ents.foldl _ [] = _
  suffices hgen : ∀ acc : List (String × String),
      (ents.foldl (fun acc e =>
        match e.2 with
        | .dir _ => acc
        | .file content => acc ++ [(e.1, content)]) acc)
        = acc ++ ents.filterMap fsFileEntry by
    simpa using hgen []
  induction ents with
  | nil => intro acc; simp
  | cons e rest ih =>
    intro acc
    rcases e with ⟨en, enode⟩
    cases enode with
    | file c =>
      simp only [List.foldl_cons, List.filterMap_cons, fsFileEntry]
      rw [ih]
      simp
    | dir sub =>
      simp only [List.foldl_cons, List.filterMap_cons, fsFileEntry]
      exact ih acc

/-- C7 (amended): for a directory, the produced map has exactly the
entries arising from direct regular-file entries (an entry (n, c) is in
the result iff the directory directly contains a file n with content c;
subdirectory entries are skipped); for a single file, the map has
exactly the one entry keyed by the base name. -/
theorem readConfigFiles_rule :
    (∀ (b : String) (ents : List (String × FsNode)) (n c : String),
       (n, c) ∈ readConfigFiles b (.dir ents) ↔ (n, FsNode.file c) ∈ ents) ∧
    ∀ b c : String, readConfigFiles b (.file c) = [(b, c)] := by
  constructor
  · intro b ents n c
    rw [readConfigFiles_dir_eq, List.mem_filterMap]
    constructor
    · rintro ⟨e, he, hfe⟩
      rcases e with ⟨en, enode⟩
      cases enode with
      | file cc =>
        simp only [fsFileEntry, Option.some_inj, Prod.mk.injEq] at hfe
        rw [← hfe.1, ← hfe.2]
        exact he
      | dir sub => simp [fsFileEntry] at hfe
    · intro h
      exact ⟨(n, .file c), h, rfl⟩
  · intro b c
    rfl

/-- C7 counterexample: a directory with a regular file and a
subdirectory.  The subdirectory is a direct entry, yet the produced map
has no entry under its name, refuting that every direct entry becomes a
map entry. -/
theorem readConfigFiles_subdir_dropped :
    ("sub", FsNode.dir []) ∈ [("a.txt", FsNode.file "1"), ("sub", FsNode.dir [])] ∧
    readConfigFiles "cfg"
        (.dir [("a.txt", FsNode.file "1"), ("sub", FsNode.dir [])])
      = [("a.txt", "1")] ∧
    (readConfigFiles "cfg"
        (.dir [("a.txt", FsNode.file "1"), ("sub", FsNode.dir [])])).lookup "sub"
      = none := by
  exact ⟨List.Mem.tail _ (List.Mem.head _), rfl, rfl⟩

/-- C1: deleting a request whose target partition equals its own
partition removes the target only if a stored owner reference carries
this request's UID; a same-named artifact with a different or absent
owner identity survives untouched; in every case exactly the finalizer
is removed from the record. -/
theorem reconcileDelete_ownership_gated (src : CfgSource) (world : List ConfigMap)
    (hsame : resolveTargetNs src = src.nspace) :
    ((reconcileDelete src world).src
        = { src with finalizers := src.finalizers.filter (fun f => f != finalizerName) }) ∧
    (getCM world src.spec.targetConfigMap src.nspace = none →
       (reconcileDelete src world).world = world) ∧
    (∀ cm, getCM world src.spec.targetConfigMap src.nspace = some cm →
       isOwnedBy cm src = false → (reconcileDelete src world).world = world) ∧
    (∀ cm, getCM world src.spec.targetConfigMap src.nspace = some cm →
       isOwnedBy cm src = true →
       getCM (reconcileDelete src world).world src.spec.targetConfigMap src.nspace
           = none ∧
       ∀ n s, ¬(n = src.spec.targetConfigMap ∧ s = src.nspace) →
         getCM (reconcileDelete src world).world n s = getCM world n s) := by
  refine ⟨?_, ?_, ?_, ?_⟩
  · simp [reconcileDelete]
  · intro hget
    simp [reconcileDelete, hsame, hget]
  · intro cm hget hown
    simp [reconcileDelete, hsame, hget, hown]
  · intro cm hget hown
    have hw : (reconcileDelete src world).world
        = delCM world src.spec.targetConfigMap src.nspace := by
      simp [reconcileDelete, hsame, hget, hown]
    rw [hw]
    exact ⟨getCM_delCM_self _ _ _,
      fun n s h => getCM_delCM_other _ _ _ _ _ h⟩

/-- Witness for C1: a foreign-owned artifact survives the deletion pass
and the finalizer is gone. -/
theorem reconcileDelete_ownership_gated_witness :
    (reconcileDelete c1src [c1cm]).world = [c1cm] ∧
    (reconcileDelete c1src [c1cm]).src.finalizers = [] := by
  have h := reconcileDelete_ownership_gated c1src [c1cm] (by decide)
  refine ⟨h.2.2.1 c1cm (by decide) (by decide), ?_⟩
  rw [h.1]
  decide

/-- C4: when the fingerprint of the fetched content equals the stored
lastSyncHash, the pass leaves the cluster untouched, keeps lastSyncHash
and the conditions unchanged, sets only lastSyncTime, performs only the
status write (the materializer is never invoked), reports no error and
requeues per the refresh interval. -/
theorem reconcile_unchanged_frame (env : FetchEnv) (src : CfgSource)
    (world : List ConfigMap) (now : Nat) (d : List (String × String))
    (hfin : finalizerName ∈ src.finalizers)
    (hdel : src.deletionTimestamp = none)
    (hfetch : fetchConfigData env src = .ok d)
    (hsame : calculateConfigHash d = src.status.lastSyncHash) :
    (reconcile env src world now).world = world ∧
    (reconcile env src world now).src.status.lastSyncHash = src.status.lastSyncHash ∧
    (reconcile env src world now).src.status.lastSyncTime = some now ∧
    (reconcile env src world now).src.status.conditions = src.status.conditions ∧
    (reconcile env src world now).ops = [Op.updateStatus] ∧
    (reconcile env src world now).err = none ∧
    (reconcile env src world now).requeueAfter = requeueSeconds src := by
  refine ⟨?_, ?_, ?_, ?_, ?_, ?_, ?_⟩ <;>
    simp [reconcile, hfin, hdel, hfetch, hsame]

/-- Witness for C4: a concrete unchanged pass leaves the world and the
stored hash alone and stamps the time. -/
theorem reconcile_unchanged_frame_witness :
    (reconcile c4env c4src [] 9).world = [] ∧
    (reconcile c4env c4src [] 9).src.status.lastSyncHash
      = c4src.status.lastSyncHash ∧
    (reconcile c4env c4src [] 9).src.status.lastSyncTime = some 9 := by
  have h := reconcile_unchanged_frame c4env c4src [] 9 [("k", "v")]
    (by decide) (by decide) (by decide) (by decide)
  exact ⟨h.1, h.2.1, h.2.2.1⟩

/-- C10: on the unchanged-fingerprint branch the pass performs no get,
create or update of any target ConfigMap at all (the operation trace is
exactly the status write); in particular a target deleted out of band
stays absent while lastSyncTime still advances and the pass requeues per
the refresh interval. -/
theorem reconcile_unchanged_no_target_access (env : FetchEnv) (src : CfgSource)
    (world : List ConfigMap) (now : Nat) (d : List (String × String))
    (hfin : finalizerName ∈ src.finalizers)
    (hdel : src.deletionTimestamp = none)
    (hfetch : fetchConfigData env src = .ok d)
    (hsame : calculateConfigHash d = src.status.lastSyncHash)
    (habsent : getCM world src.spec.targetConfigMap (resolveTargetNs src) = none) :
    getCM (reconcile env src world now).world
        src.spec.targetConfigMap (resolveTargetNs src) = none ∧
    (reconcile env src world now).ops = [Op.updateStatus] ∧
    (∀ n s, Op.getTarget n s ∉ (reconcile env src world now).ops ∧
            Op.createTarget n s ∉ (reconcile env src world now).ops ∧
            Op.updateTarget n s ∉ (reconcile env src world now).ops) ∧
    (reconcile env src world now).src.status.lastSyncTime = some now ∧
    (reconcile env src world now).requeueAfter = requeueSeconds src := by
  have hops : (reconcile env src world now).ops = [Op.updateStatus] := by
    simp [reconcile, hfin, hdel, hfetch, hsame]
  have hw : (reconcile env src world now).world = world := by
    simp [reconcile, hfin, hdel, hfetch, hsame]
  refine ⟨by rw [hw]; exact habsent, hops, ?_, ?_, ?_⟩
  · intro n s
    rw [hops]
    refine ⟨by simp, by simp, by simp⟩
  · simp [reconcile, hfin, hdel, hfetch, hsame]
  · simp [reconcile, hfin, hdel, hfetch, hsame]

/-- Witness for C10: with the target absent and the fingerprint
unchanged, the target is not recreated. -/
theorem reconcile_unchanged_no_target_access_witness :
    getCM (reconcile c10env c10src [] 4).world "tgt" "default" = none ∧
    (reconcile c10env c10src [] 4).ops = [Op.updateStatus] := by
  have h := reconcile_unchanged_no_target_access c10env c10src [] 4 [("a", "1")]
    (by decide) (by decide) (by decide) (by decide) (by decide)
  exact ⟨h.1, h.2.1⟩

/-- C5: on any source-adapter failure in an active pass, the engine
stamps the Ready condition False with the stable reason FetchFailed,
still performs the status write, schedules a fixed one-minute retry
independent of the configured refresh interval, propagates the error to
the dispatcher, leaves the cluster alone and never updates
lastSyncHash. -/
theorem reconcile_fetch_failure (env : FetchEnv) (src : CfgSource)
    (world : List ConfigMap) (now : Nat) (e : String)
    (hfin : finalizerName ∈ src.finalizers)
    (hdel : src.deletionTimestamp = none)
    (hfetch : fetchConfigData env src = .error e) :
    (reconcile env src world now).err = some e ∧
    (reconcile env src world now).requeueAfter = 60 ∧
    (reconcile env src world now).src.status.lastSyncHash = src.status.lastSyncHash ∧
    (reconcile env src world now).world = world ∧
    (reconcile env src world now).ops = [Op.updateStatus] ∧
    stampCondition
        ⟨"Ready", "False", "FetchFailed",
         "Failed to fetch configuration data: " ++ e, 0, 0⟩ now src.generation
      ∈ (reconcile env src world now).src.status.conditions := by
  have hc : (reconcile env src world now).src.status.conditions
      = upsertCondition src.status.conditions
          (stampCondition
            ⟨"Ready", "False", "FetchFailed",
             "Failed to fetch configuration data: " ++ e, 0, 0⟩ now src.generation) := by
    simp [reconcile, hfin, hdel, hfetch, setStatusCondition]
  refine ⟨?_, ?_, ?_, ?_, ?_, ?_⟩
  · simp [reconcile, hfin, hdel, hfetch]
  · simp [reconcile, hfin, hdel, hfetch]
  · simp [reconcile, hfin, hdel, hfetch, setStatusCondition]
  · simp [reconcile, hfin, hdel, hfetch]
  · simp [reconcile, hfin, hdel, hfetch]
  · rw [hc]
    exact mem_upsertCondition _ _

/-- Witness for C5: a failing Git adapter yields the one-minute retry
(although the refresh interval says 600 seconds), the propagated error,
and an untouched stored hash. -/
theorem reconcile_fetch_failure_witness :
    (reconcile c5env c5src [] 2).err = some "clone failed" ∧
    (reconcile c5env c5src [] 2).requeueAfter = 60 ∧
    (reconcile c5env c5src [] 2).src.status.lastSyncHash = "abc123" := by
  have h := reconcile_fetch_failure c5env c5src [] 2 "clone failed"
    (by decide) (by decide) (by decide)
  exact ⟨h.1, h.2.1, h.2.2.1⟩

/-- C3: when the materializer runs, an owner reference carrying the
request's UID is attached exactly on the creation path with the target
namespace equal to the request's own namespace; a pre-existing target
keeps its owner references unchanged (never force-added), so a
cross-partition target never acquires this request's ownership. -/
theorem reconcile_ownerRef_creation_only (env : FetchEnv) (src : CfgSource)
    (world : List ConfigMap) (now : Nat) (d : List (String × String))
    (hfin : finalizerName ∈ src.finalizers)
    (hdel : src.deletionTimestamp = none)
    (hfetch : fetchConfigData env src = .ok d)
    (hch : calculateConfigHash d ≠ src.status.lastSyncHash) :
    ∃ cm', getCM (reconcile env src world now).world
             src.spec.targetConfigMap (resolveTargetNs src) = some cm' ∧
      cm'.data = d ∧
      cm'.ownerReferences
        = (match getCM world src.spec.targetConfigMap (resolveTargetNs src) with
           | none => if src.nspace = resolveTargetNs src then [src.uid] else []
           | some cm => cm.ownerReferences) := by
  cases hx : getCM world src.spec.targetConfigMap (resolveTargetNs src) with
  | none =>
    have hw : (reconcile env src world now).world
        = putCM world
            { name := src.spec.targetConfigMap, nspace := resolveTargetNs src,
              data := d,
              ownerReferences :=
                if src.nspace = resolveTargetNs src then [src.uid] else [] } := by
      simp [reconcile, hfin, hdel, hfetch, hch, hx]
    rw [hw]
    exact ⟨_, getCM_putCM_self _ _, rfl, rfl⟩
  | some cm =>
    have hkey := getCM_some_key hx
    have hw : (reconcile env src world now).world
        = putCM world { cm with data := d } := by
      simp [reconcile, hfin, hdel, hfetch, hch, hx]
    rw [hw]
    refine ⟨{ cm with data := d }, ?_, rfl, rfl⟩
    rw [← hkey.1, ← hkey.2]
    exact getCM_putCM_self world { cm with data := d }

/-- Witness for C3: a same-namespace creation attaches exactly the
request's UID as owner. -/
theorem reconcile_ownerRef_creation_only_witness :
    ∃ cm', getCM (reconcile c3env c3src [] 7).world "tgt" "default" = some cm' ∧
      cm'.data = [("k", "v")] ∧ cm'.ownerReferences = ["uid-3"] := by
  have h := reconcile_ownerRef_creation_only c3env c3src [] 7 [("k", "v")]
    (by decide) (by decide) (by decide) (by decide)
  obtain ⟨cm', h1, h2, h3⟩ := h
  refine ⟨cm', h1, h2, ?_⟩
  rw [h3]
  decide

/-- C9 counterexample: on an unrecognized source kind the engine does
return a configuration error, but the pass IS scheduled for retry: the
returned result carries a one-minute requeue (and the error itself makes
the dispatcher back off and redeliver), refuting that the pass is not
retried. -/
theorem unknown_kind_retry_scheduled :
    (reconcile c9env c9src [] 0).err = some "unsupported source type: Vault" ∧
    (reconcile c9env c9src [] 0).requeueAfter = 60 ∧
    ¬ (reconcile c9env c9src [] 0).requeueAfter = 0 := by
  decide

/-- C9 (amended): an unrecognized source kind is reported as a
configuration error through the ordinary fetch-failure path — Ready is
stamped False, the error propagates, and the standard one-minute retry
is scheduled; since the outcome is independent of the environment, every
retry fails identically until the record's spec is edited (no
special-cased escalation). -/
theorem unknown_kind_config_error (env : FetchEnv) (src : CfgSource)
    (world : List ConfigMap) (now : Nat)
    (hfin : finalizerName ∈ src.finalizers)
    (hdel : src.deletionTimestamp = none)
    (hkind : src.spec.sourceType ≠ "Git" ∧ src.spec.sourceType ≠ "File" ∧
             src.spec.sourceType ≠ "ConfigMap" ∧ src.spec.sourceType ≠ "Secret") :
    (∀ env' : FetchEnv, fetchConfigData env' src
        = .error ("unsupported source type: " ++ src.spec.sourceType)) ∧
    (reconcile env src world now).err
        = some ("unsupported source type: " ++ src.spec.sourceType) ∧
    (reconcile env src world now).requeueAfter = 60 ∧
    (reconcile env src world now).world = world ∧
    stampCondition
        ⟨"Ready", "False", "FetchFailed",
         "Failed to fetch configuration data: "
           ++ ("unsupported source type: " ++ src.spec.sourceType), 0, 0⟩
        now src.generation
      ∈ (reconcile env src world now).src.status.conditions := by
  obtain ⟨h1, h2, h3, h4⟩ := hkind
  have hf : ∀ env' : FetchEnv, fetchConfigData env' src
      = .error ("unsupported source type: " ++ src.spec.sourceType) := by
    intro env'
    simp [fetchConfigData, h1, h2, h3, h4]
  have hfe := hf env
  have hc : (reconcile env src world now).src.status.conditions
      = upsertCondition src.status.conditions
          (stampCondition
            ⟨"Ready", "False", "FetchFailed",
             "Failed to fetch configuration data: "
               ++ ("unsupported source type: " ++ src.spec.sourceType), 0, 0⟩
            now src.generation) := by
    simp [reconcile, hfin, hdel, hfe, setStatusCondition]
  refine ⟨hf, ?_, ?_, ?_, ?_⟩
  · simp [reconcile, hfin, hdel, hfe]
  · simp [reconcile, hfin, hdel, hfe]
  · simp [reconcile, hfin, hdel, hfe]
  · rw [hc]
    exact mem_upsertCondition _ _

/-- Witness for C9 (amended): the concrete unknown kind Vault fails the
same way under any environment and draws the one-minute retry. -/
theorem unknown_kind_config_error_witness :
    fetchConfigData c9env c9src
      = .error ("unsupported source type: " ++ c9src.spec.sourceType) ∧
    (reconcile c9env c9src [] 0).requeueAfter = 60 := by
  have h := unknown_kind_config_error c9env c9src [] 0 (by decide) (by decide)
    ⟨by decide, by decide, by decide, by decide⟩
  exact ⟨h.1 c9env, h.2.2.1⟩

/-! ### Helper lemmas for the fan-out loop -/

theorem getCM_putCM_self_key (w : List ConfigMap) (cm : ConfigMap) (n s : String)
    (hn : cm.name = n) (hs : cm.nspace = s) :
    getCM (putCM w cm) n s = some cm := by
  subst hn
  subst hs
  exact getCM_putCM_self w cm

theorem getCM_createOrUpdate_self (w : List ConfigMap) (ns : String)
    (srcCM : ConfigMap) (labels : List (String × String)) :
    ∃ cm, getCM (createOrUpdate w ns srcCM labels) srcCM.name ns = some cm ∧
      cm.data = srcCM.data := by
  unfold createOrUpdate
  cases hx : getCM w srcCM.name ns with
  | some ex =>
    have hkey := getCM_some_key hx
    exact ⟨_, getCM_putCM_self_key w _ _ _ hkey.1 hkey.2, rfl⟩
  | none =>
    exact ⟨_, getCM_putCM_self_key w _ _ _ rfl rfl, rfl⟩

theorem getCM_createOrUpdate_other (w : List ConfigMap) (ns : String)
    (srcCM : ConfigMap) (labels : List (String × String)) (n s : String)
    (h : ¬(n = srcCM.name ∧ s = ns)) :
    getCM (createOrUpdate w ns srcCM labels) n s = getCM w n s := by
  unfold createOrUpdate
  cases hx : getCM w srcCM.name ns with
  | some ex =>
    have hkey := getCM_some_key hx
    apply getCM_putCM_other
    intro hc
    exact h ⟨hc.1.trans hkey.1, hc.2.trans hkey.2⟩
  | none =>
    apply getCM_putCM_other
    intro hc
    exact h ⟨hc.1, hc.2⟩

theorem syncLoop_synced (cms : ConfigMapSync) (srcCM : ConfigMap)
    (failNs : String → Bool) (l : List String) :
    ∀ w, (syncLoop cms srcCM failNs l w).2
      = l.filter (fun ns => !(ns == cms.nspace) && !failNs ns) := by
  induction l with
  | nil => intro w; rfl
  | cons ns0 rest ih =>
    intro w
    by_cases h1 : ns0 = cms.nspace
    · simp [syncLoop, h1, ih]
    · by_cases h2 : failNs ns0 = true
      · simp [syncLoop, h1, h2, ih]
      · simp [syncLoop, h1, h2, ih]

theorem syncLoop_preserves (cms : ConfigMapSync) (srcCM : ConfigMap)
    (failNs : String → Bool) (l : List String) :
    ∀ w ns, (∃ cm, getCM w srcCM.name ns = some cm ∧ cm.data = srcCM.data) →
      ∃ cm, getCM (syncLoop cms srcCM failNs l w).1 srcCM.name ns = some cm ∧
        cm.data = srcCM.data := by
  induction l with
  | nil => intro w ns h; exact h
  | cons ns0 rest ih =>
    intro w ns h
    by_cases h1 : ns0 = cms.nspace
    · simp only [syncLoop, if_pos h1]
      exact ih w ns h
    · by_cases h2 : failNs ns0 = true
      · simp only [syncLoop, if_neg h1, if_pos h2]
        exact ih w ns h
      · simp only [syncLoop, if_neg h1, if_neg h2]
        apply ih
        by_cases h3 : ns = ns0
        · subst h3
          exact getCM_createOrUpdate_self w ns srcCM cms.labels
        · rw [getCM_createOrUpdate_other w ns0 srcCM cms.labels srcCM.name ns
            (fun hc => h3 hc.2)]
          exact h

theorem syncLoop_writes (cms : ConfigMapSync) (srcCM : ConfigMap)
    (failNs : String → Bool) (l : List String) :
    ∀ w ns, ns ∈ l → ns ≠ cms.nspace → failNs ns = false →
      ∃ cm, getCM (syncLoop cms srcCM failNs l w).1 srcCM.name ns = some cm ∧
        cm.data = srcCM.data := by
  induction l with
  | nil => intro w ns h; cases h
  | cons ns0 rest ih =>
    intro w ns hmem hne hf
    by_cases h1 : ns0 = cms.nspace
    · simp only [syncLoop, if_pos h1]
      have hrest : ns ∈ rest := by
        cases hmem with
        | head => exact absurd h1 hne
        | tail _ hm => exact hm
      exact ih w ns hrest hne hf
    · by_cases h2 : failNs ns0 = true
      · simp only [syncLoop, if_neg h1, if_pos h2]
        have hrest : ns ∈ rest := by
          cases hmem with
          | head => rw [hf] at h2; exact absurd h2 (by decide)
          | tail _ hm => exact hm
        exact ih w ns hrest hne hf
      · simp only [syncLoop, if_neg h1, if_neg h2]
        cases hmem with
        | head =>
          exact syncLoop_preserves cms srcCM failNs rest _ ns0
            (getCM_createOrUpdate_self w ns0 srcCM cms.labels)
        | tail _ hm =>
          exact ih _ ns hm hne hf

/-- C6: with the source present, a failing target partition is skipped
without aborting the rest: every other (non-own, non-failing) target
namespace ends up holding a copy of the source data;
status.syncedNamespaces is rewritten to exactly the namespaces that
succeeded this pass, independent of any prior status; lastSyncTime is
stamped; and the wake-up delay is the fixed 300 seconds regardless of
failures. -/
theorem syncReconcile_partial_failure_isolated (cms : ConfigMapSync)
    (world : List ConfigMap) (failNs : String → Bool) (now : Nat)
    (srcCM : ConfigMap)
    (hsrc : getCM world cms.sourceConfigMap cms.nspace = some srcCM) :
    (syncReconcile cms world failNs now).cms.syncedNamespaces
        = cms.targetNamespaces.filter (fun ns => !(ns == cms.nspace) && !failNs ns) ∧
    (syncReconcile cms world failNs now).requeueAfter = 300 ∧
    (syncReconcile cms world failNs now).cms.lastSyncTime = some now ∧
    ∀ ns ∈ cms.targetNamespaces, ns ≠ cms.nspace → failNs ns = false →
      ∃ cm, getCM (syncReconcile cms world failNs now).world srcCM.name ns
          = some cm ∧ cm.data = srcCM.data := by
  have h1 : (syncReconcile cms world failNs now).world
      = (syncLoop cms srcCM failNs cms.targetNamespaces world).1 := by
    simp [syncReconcile, hsrc]
  have h2 : (syncReconcile cms world failNs now).cms.syncedNamespaces
      = (syncLoop cms srcCM failNs cms.targetNamespaces world).2 := by
    simp [syncReconcile, hsrc]
  have h3 : (syncReconcile cms world failNs now).requeueAfter = 300 := by
    simp [syncReconcile, hsrc]
  have h4 : (syncReconcile cms world failNs now).cms.lastSyncTime = some now := by
    simp [syncReconcile, hsrc]
  refine ⟨h2.trans (syncLoop_synced cms srcCM failNs cms.targetNamespaces world),
    h3, h4, ?_⟩
  intro ns hmem hne hf
  rw [h1]
  exact syncLoop_writes cms srcCM failNs cms.targetNamespaces world ns hmem hne hf

/-- Witness for C6: with targets ns1 and ns2 where writing to ns2 fails,
ns1 still receives the copy and syncedNamespaces is exactly ns1 (the
stale prior status is discarded). -/
theorem syncReconcile_partial_failure_isolated_witness :
    (syncReconcile c6cms [c6srcCM] c6fail 3).cms.syncedNamespaces = ["ns1"] ∧
    ∃ cm, getCM (syncReconcile c6cms [c6srcCM] c6fail 3).world "app-config" "ns1"
        = some cm ∧ cm.data = [("k", "v")] := by
  have h := syncReconcile_partial_failure_isolated c6cms [c6srcCM] c6fail 3 c6srcCM
    (by decide)
  refine ⟨?_, ?_⟩
  · rw [h.1]
    decide
  · exact h.2.2.2 "ns1" (by decide) (by decide) (by decide)
